import Mathlib

/-!
# Verification of the CLIF eligibility-for-mobilization core transforms

Shallow embedding of the two core batch transforms of `code/pyCLIF.py`:

* `stitch_encounters` (the Encounter Stitcher / Linkage Propagator,
  lines 452-527), and
* `process_resp_support` (the Waterfall Normalizer, lines 279-450).

Timestamps are modelled as `Int` seconds (pandas datetimes); missing values
(`NaN`/`NaT`/`None`) as `Option.none`.  Identifier columns are modelled as
`Nat` (pandas string ordering abstracted to the `Nat` order).  Numeric
observation columns are modelled as `Option Int` in centi-units (so the
float `0.21` is the integer `21` and the threshold `> 1` is `> 100`); the
pipeline only tests these columns for missingness and order, so the scaling
is exact.  Pandas `groupby` operations are embedded positionally (a group is
the set of all indices with the same key, in row order), exactly as pandas
computes them, without assuming groups are contiguous.
-/

namespace CLIF

/-! ## Encounter Stitcher (`stitch_encounters`)

One row of the `hospital_block` frame built at lines 474-478: the
hospitalization table projected to `patient_id`, `hospitalization_id`,
`admission_dttm`, `discharge_dttm`, deduplicated and sorted by
`(patient_id, admission_dttm)` (pandas puts `NaT` last within each patient).
-/

structure Hosp where
  patient_id : Nat
  hospitalization_id : Nat
  admission_dttm : Option Int
  discharge_dttm : Option Int
deriving DecidableEq

/-- `admission_dttm` order used by `sort_values(["patient_id","admission_dttm"])`:
`NaT` (`none`) sorts after every real timestamp. -/
def admLE : Option Int → Option Int → Prop
  | some a, some b => a ≤ b
  | some _, none => True
  | none, some _ => False
  | none, none => True

instance : DecidableRel admLE := fun x y =>
  match x, y with
  | some a, some b => inferInstanceAs (Decidable (a ≤ b))
  | some _, none => isTrue trivial
  | none, some _ => isFalse (fun h => h)
  | none, none => isTrue trivial

/-- Row order of the sorted `hospital_block` frame. -/
def hbLE (a b : Hosp) : Prop :=
  a.patient_id < b.patient_id ∨
    (a.patient_id = b.patient_id ∧ admLE a.admission_dttm b.admission_dttm)

instance : DecidableRel hbLE := fun a b =>
  inferInstanceAs (Decidable (a.patient_id < b.patient_id ∨
    (a.patient_id = b.patient_id ∧ admLE a.admission_dttm b.admission_dttm)))

/-- Line 481: `groupby("patient_id")["admission_dttm"].shift(-1)` at row `i`:
the admission time of the next row belonging to the same patient (pandas
groupby is positional and does not require the group to be contiguous). -/
def nextAdm (l : List Hosp) (i : Nat) : Option Int :=
  (l[i]?).bind (fun r =>
    (((l.drop (i + 1)).find? (fun s => s.patient_id = r.patient_id)).bind
      (fun s => s.admission_dttm)))

/-- Lines 482-487: `discharge_to_next_admission_hrs < time_interval`.
The gap is `(next_admission - discharge)` in hours; with integer-second
timestamps, `gap_seconds / 3600 < time_interval` is exactly
`gap_seconds < time_interval * 3600`.  Any `NaT` operand gives `NaN`, and
`NaN < time_interval` is `False` in pandas. -/
def gapLinked (interval : Int) : Option Int → Option Int → Bool
  | some d, some a => decide (a - d < interval * 3600)
  | _, _ => false

def linkedCol (interval : Int) (l : List Hosp) (i : Nat) : Bool :=
  gapLinked interval ((l[i]?).bind Hosp.discharge_dttm) (nextAdm l i)

/-- Line 498: `linked6hrs & (patient_id == patient_id.shift(-1))` — the
propagation mask of one pass of the while-loop.  `patient_id.shift(-1)` is a
plain (ungrouped) shift, i.e. the literally adjacent next row. -/
def maskB (interval : Int) (l : List Hosp) (i : Nat) : Bool :=
  linkedCol interval l i &&
    match l[i]?, l[i + 1]? with
    | some r, some s => decide (r.patient_id = s.patient_id)
    | _, _ => false

/-- Line 493: `encounter_block = index + 1`.  `Option Int` models a float
column that could in principle hold `NaN`. -/
def initB (l : List Hosp) : List (Option Int) :=
  (List.range l.length).map (fun (i : Nat) => some ((i : Int) + 1))

/-- Lines 497-499: one pass of the propagation loop.  `shifted` is computed
before the assignment, so the whole pass reads the pre-pass block ids:
`new[i] = old[i+1]` where the mask holds, else `old[i]`. -/
def passB (interval : Int) (l : List Hosp) (b : List (Option Int)) :
    List (Option Int) :=
  (List.range b.length).map
    (fun i => if maskB interval l i then b.getD (i + 1) none else b.getD i none)

/-- Pandas `Series.bfill()`: fill each missing entry with the next
non-missing entry below it. -/
def bfillO : List (Option Int) → List (Option Int)
  | [] => []
  | x :: xs =>
    let ys := bfillO xs
    (match x with
     | some v => some v
     | none => ys.headD none) :: ys

/-- Lines 496-501: the `while True` loop.  Each iteration performs one pass
and stops when `encounter_block.equals(encounter_block.bfill())`.  The
Python loop is unbounded; the fuel argument only majorizes the number of
iterations, and `stitchLoopB_eq_passB` below shows that the break condition
fires after the very first pass, whatever the input. -/
def stitchLoopB (interval : Int) (l : List Hosp) :
    Nat → List (Option Int) → List (Option Int)
  | 0, b => b
  | n + 1, b =>
    let b' := passB interval l b
    if b' = bfillO b' then b' else stitchLoopB interval l n b'

/-- Lines 492-503: initialize block ids, run the loop, then
`bfill(downcast='int')`.  Returns the final integer `encounter_block`
column of the sorted `hospital_block` frame. -/
def encounterLabels (interval : Int) (l : List Hosp) : List Int :=
  (bfillO (stitchLoopB interval l (l.length + 1) (initB l))).map
    (fun o => o.getD 0)

/-- Line 477: sort the hospitalization rows by `(patient_id, admission_dttm)`. -/
def stitchSorted (l : List Hosp) : List Hosp :=
  l.insertionSort hbLE

/-- Each sorted hospitalization row paired with its `encounter_block` id:
the membership information that lines 504-525 regroup and join with the
ADT table. -/
def stitchEncounters (interval : Int) (l : List Hosp) : List (Hosp × Int) :=
  (stitchSorted l).zip (encounterLabels interval (stitchSorted l))

/-! ### The while-loop's break condition is vacuous: it runs exactly one pass -/

theorem maskB_lt (interval : Int) (l : List Hosp) (i : Nat)
    (h : maskB interval l i = true) : i + 1 < l.length := by
  by_contra hge
  have hnone : l[i + 1]? = none := by
    rw [List.getElem?_eq_none_iff]
    omega
  unfold maskB at h
  rw [hnone] at h
  rcases hi : l[i]? with _ | r <;> rw [hi] at h <;> simp at h

theorem initB_length (l : List Hosp) : (initB l).length = l.length := by
  rw [initB, List.length_map, List.length_range]

theorem initB_getD (l : List Hosp) (j : Nat) :
    (initB l).getD j none = if j < l.length then some ((j : Int) + 1) else none := by
  rw [List.getD_eq_getElem?_getD]
  by_cases hj : j < l.length
  · rw [if_pos hj, initB, List.getElem?_map, List.getElem?_range hj]
    rfl
  · rw [if_neg hj, List.getElem?_eq_none_iff.mpr (by rw [initB_length]; omega)]
    rfl

/-- The block id computed for row `i` by the single pass the loop performs:
row `i` takes the initial id of row `i+1` exactly when the mask holds. -/
def labelAt (interval : Int) (l : List Hosp) (i : Nat) : Int :=
  if maskB interval l i then (i : Int) + 2 else (i : Int) + 1

theorem passB_initB (interval : Int) (l : List Hosp) :
    passB interval l (initB l) =
      (List.range l.length).map (fun i => some (labelAt interval l i)) := by
  unfold passB
  rw [initB_length]
  refine List.map_congr_left (fun i hi => ?_)
  have hiL : i < l.length := List.mem_range.mp hi
  by_cases hm : maskB interval l i = true
  · have h1 : i + 1 < l.length := maskB_lt interval l i hm
    rw [initB_getD, if_pos h1]
    simp [labelAt, hm]
    ring
  · rw [if_neg hm, initB_getD, if_pos hiL]
    simp [labelAt, hm]

/-- Backward fill of a column without missing entries is the column itself. -/
theorem bfillO_all_some (b : List (Option Int))
    (h : ∀ x ∈ b, x ≠ none) : bfillO b = b := by
  induction b with
  | nil => rfl
  | cons x xs ih =>
    have hx : x ≠ none := h x (List.mem_cons_self x xs)
    have hxs : bfillO xs = xs := ih (fun y hy => h y (List.mem_cons_of_mem x hy))
    rcases x with _ | v
    · exact absurd rfl hx
    · simp [bfillO, hxs]

/-- After one pass starting from the initial ids, the column has no missing
entry, so the `equals(bfill())` break test is already true: the "fixpoint"
loop of lines 496-501 always stops after its first iteration. -/
theorem stitchLoopB_eq_passB (interval : Int) (l : List Hosp) (n : Nat) :
    stitchLoopB interval l (n + 1) (initB l) = passB interval l (initB l) := by
  have hsome : ∀ x ∈ passB interval l (initB l), x ≠ none := by
    rw [passB_initB]
    intro x hx
    rcases List.mem_map.mp hx with ⟨i, _, rfl⟩
    exact Option.some_ne_none _
  show (if _ = _ then _ else _) = _
  rw [if_pos (bfillO_all_some _ hsome).symm]

/-- Closed form of the `encounter_block` column the code actually computes:
row `i` gets `i+2` when it is linked to the literally next row of the same
patient, else keeps its own initial id `i+1`.  In particular no id ever
propagates across more than one row. -/
theorem encounterLabels_eq (interval : Int) (l : List Hosp) :
    encounterLabels interval l =
      (List.range l.length).map (labelAt interval l) := by
  unfold encounterLabels
  rw [stitchLoopB_eq_passB, passB_initB]
  rw [bfillO_all_some]
  · rw [List.map_map]
    rfl
  · intro x hx
    rcases List.mem_map.mp hx with ⟨i, _, rfl⟩
    exact Option.some_ne_none _

/-! ### Concrete stitcher fixtures -/

/-- Patient 1, three hospitalizations with one-hour discharge-to-admission
gaps on both consecutive pairs (well below the default 6-hour threshold):
the pairwise-linked chain A → B → C of the fixpoint-correctness claim. -/
def chainA : Hosp := ⟨1, 101, some 0, some 3600⟩

def chainB : Hosp := ⟨1, 102, some 7200, some 10800⟩

def chainC : Hosp := ⟨1, 103, some 14400, some 18000⟩

def chain3 : List Hosp := [chainA, chainB, chainC]

/-- C1 (code bug).  The spec demands that block-id propagation repeat until
a full pass changes nothing, so a pairwise-linked chain A → B → C collapses
into one encounter block.  The code's `while True` loop breaks when the
block column equals its own backward fill, which is vacuously true (the
column never contains a missing value), so exactly one pass runs: on the
chain, A keeps block 2 while B and C get block 3 — two blocks, not one —
even though a second pass would still have changed A's id (no fixpoint was
reached). -/
theorem C1_three_chain_not_one_block :
    linkedCol 6 chain3 0 = true ∧ linkedCol 6 chain3 1 = true ∧
    stitchEncounters 6 chain3 = [(chainA, 2), (chainB, 3), (chainC, 3)] ∧
    passB 6 chain3 (passB 6 chain3 (initB chain3)) ≠
      passB 6 chain3 (initB chain3) := by
  decide

/-- Patient 2: the same pairwise-linked chain with different timestamps,
used to examine the linked-pair placement rule of the gap claim. -/
def gapChain : List Hosp :=
  [⟨2, 201, some 0, some 7200⟩, ⟨2, 202, some 10800, some 14400⟩,
   ⟨2, 203, some 18000, some 21600⟩]

/-- Patient 3: two hospitalizations, discharge-to-next-admission gap of
exactly 3 hours (scenario 4, linked case). -/
def pairGap3h : List Hosp :=
  [⟨3, 301, some 0, some 86400⟩, ⟨3, 302, some 97200, some 200000⟩]

/-- Patient 4: two hospitalizations, gap of 10 hours (scenario 4, unlinked
case). -/
def pairGap10h : List Hosp :=
  [⟨4, 401, some 0, some 86400⟩, ⟨4, 402, some 122400, some 200000⟩]

/-- C8 (code bug).  The `linked` column is indeed `gap < threshold` and the
two-hospitalization scenarios behave as claimed (3-hour gap → one block,
10-hour gap → two blocks), but "linked — and hence placed in the same
encounter block" fails: in a chain, the pair (0,1) is linked (1-hour gap)
yet row 0 ends in block 2 and row 1 in block 3, because the propagation
loop stops after a single pass. -/
theorem C8_linked_pair_split :
    linkedCol 6 gapChain 0 = true ∧
    encounterLabels 6 gapChain = [2, 3, 3] ∧
    encounterLabels 6 pairGap3h = [2, 2] ∧
    encounterLabels 6 pairGap10h = [1, 2] := by
  decide

/-! ### Partition invariant (claim C3) -/

/-- The `list_hospitalization_id` content of the encounter block keyed by
`(patient_id, encounter_block) = (p, b)` in the groupby of lines 508-513:
the hospitalization ids of the rows carrying that patient and that label.
(The code sorts and uniquifies the list; with distinct hospitalization ids
only the set content matters.) -/
def blockIds (interval : Int) (l : List Hosp) (p : Nat) (b : Int) : List Nat :=
  ((l.zip (encounterLabels interval l)).filter
    (fun x => decide (x.1.patient_id = p) && decide (x.2 = b))).map
    (fun x => x.1.hospitalization_id)

theorem encounterLabels_length (interval : Int) (l : List Hosp) :
    (encounterLabels interval l).length = l.length := by
  rw [encounterLabels_eq, List.length_map, List.length_range]

theorem encounterLabels_getElem? (interval : Int) (l : List Hosp) (i : Nat)
    (hi : i < l.length) :
    (encounterLabels interval l)[i]? = some (labelAt interval l i) := by
  rw [encounterLabels_eq, List.getElem?_map, List.getElem?_range hi]
  rfl

theorem zipLabels_length (interval : Int) (l : List Hosp) :
    (l.zip (encounterLabels interval l)).length = l.length := by
  rw [List.length_zip, encounterLabels_length, min_self]

theorem zipLabels_getElem? (interval : Int) (l : List Hosp) (i : Nat)
    (hi : i < l.length) :
    (l.zip (encounterLabels interval l))[i]? =
      some (l[i], labelAt interval l i) := by
  have hz : i < (l.zip (encounterLabels interval l)).length := by
    rw [zipLabels_length]; exact hi
  have hL : i < (encounterLabels interval l).length := by
    rw [encounterLabels_length]; exact hi
  have h := encounterLabels_getElem? interval l i hi
  rw [List.getElem?_eq_getElem hL] at h
  rw [List.getElem?_eq_getElem hz, List.getElem_zip,
    show (encounterLabels interval l)[i] = labelAt interval l i from
      Option.some.inj h]

/-- Membership in a block, characterized by row index: hospitalization id
`x` lies in the block `(p, b)` iff some row `i` carries patient `p`, label
`b` and id `x`. -/
theorem mem_blockIds (interval : Int) (l : List Hosp) (p : Nat) (b : Int)
    (x : Nat) :
    x ∈ blockIds interval l p b ↔
      ∃ (i : Nat) (hi : i < l.length),
        l[i].patient_id = p ∧ labelAt interval l i = b ∧
          l[i].hospitalization_id = x := by
  constructor
  · intro hx
    rcases List.mem_map.mp hx with ⟨y, hy, hyx⟩
    rcases List.mem_filter.mp hy with ⟨hyz, hcond⟩
    rcases List.getElem_of_mem hyz with ⟨i, hzi, hyi⟩
    have hil : i < l.length := by rwa [zipLabels_length] at hzi
    have h1 := zipLabels_getElem? interval l i hil
    rw [List.getElem?_eq_getElem hzi, hyi] at h1
    have hy2 : y = (l[i], labelAt interval l i) := Option.some.inj h1
    subst hy2
    simp only [Bool.and_eq_true, decide_eq_true_eq] at hcond
    exact ⟨i, hil, hcond.1, hcond.2, hyx⟩
  · rintro ⟨i, hi, hp, hb, hx⟩
    refine List.mem_map.mpr ⟨(l[i], labelAt interval l i), ?_, hx⟩
    refine List.mem_filter.mpr ⟨?_, ?_⟩
    · have hz : i < (l.zip (encounterLabels interval l)).length := by
        rw [zipLabels_length]; exact hi
      have h1 := zipLabels_getElem? interval l i hi
      rw [List.getElem?_eq_getElem hz] at h1
      rw [← Option.some.inj h1]
      exact List.getElem_mem hz
    · simp [hp, hb]

/-- C3 (confirmed).  With distinct hospitalization ids, every
hospitalization of the input belongs to exactly one encounter block of its
own patient, and every id appearing in a block `(p, b)` comes from a row of
patient `p`: the blocks of one patient are pairwise disjoint, their union
is the patient's full hospitalization set, and no block mixes patients. -/
theorem C3_blocks_partition (interval : Int) (l : List Hosp)
    (hnd : (l.map Hosp.hospitalization_id).Nodup) :
    (∀ (i : Nat) (hi : i < l.length),
        ∃! b : Int,
          l[i].hospitalization_id ∈ blockIds interval l l[i].patient_id b) ∧
    (∀ (p : Nat) (b : Int) (x : Nat), x ∈ blockIds interval l p b →
        ∃ (i : Nat) (hi : i < l.length),
          l[i].patient_id = p ∧ l[i].hospitalization_id = x) := by
  constructor
  · intro i hi
    refine ⟨labelAt interval l i, ?_, ?_⟩
    · exact (mem_blockIds interval l _ _ _).mpr ⟨i, hi, rfl, rfl, rfl⟩
    · intro b hb
      rcases (mem_blockIds interval l _ _ _).mp hb with ⟨j, hj, hpj, hbj, hxj⟩
      have hmapj : j < (l.map Hosp.hospitalization_id).length := by
        rwa [List.length_map]
      have hmapi : i < (l.map Hosp.hospitalization_id).length := by
        rwa [List.length_map]
      have heq : (l.map Hosp.hospitalization_id)[j] =
          (l.map Hosp.hospitalization_id)[i] := by
        rw [List.getElem_map, List.getElem_map]
        exact hxj
      have hij : j = i := (hnd.getElem_inj_iff).mp heq
      subst hij
      exact hbj.symm
  · intro p b x hx
    rcases (mem_blockIds interval l _ _ _).mp hx with ⟨i, hi, hp, _, hid⟩
    exact ⟨i, hi, hp, hid⟩

/-- Witness: the partition property evaluated on the concrete three-chain. -/
theorem C3_blocks_partition_witness :
    (chain3.map Hosp.hospitalization_id).Nodup ∧
    ((∀ (i : Nat) (hi : i < chain3.length),
        ∃! b : Int,
          chain3[i].hospitalization_id ∈
            blockIds 6 chain3 chain3[i].patient_id b) ∧
     (∀ (p : Nat) (b : Int) (x : Nat), x ∈ blockIds 6 chain3 p b →
        ∃ (i : Nat) (hi : i < chain3.length),
          chain3[i].patient_id = p ∧ chain3[i].hospitalization_id = x)) :=
  ⟨by decide, C3_blocks_partition 6 chain3 (by decide)⟩

/-! ### Missing admission/discharge times (claim C7) -/

/-- In the sorted frame, a row with missing `admission_dttm` sits after all
dated rows of its patient, so the next same-patient admission seen from it
(or from any row pointing at it) is itself missing. -/
theorem nextAdm_of_adm_none (l : List Hosp) (hs : List.Sorted hbLE l)
    (i : Nat) (hi : i < l.length) (ha : l[i].admission_dttm = none) :
    nextAdm l i = none := by
  unfold nextAdm
  rw [List.getElem?_eq_getElem hi, Option.some_bind]
  rcases hf : (l.drop (i + 1)).find? (fun s => s.patient_id = l[i].patient_id)
    with _ | s
  · rw [hf]
    rfl
  · rw [hf, Option.some_bind]
    have hps : s.patient_id = l[i].patient_id := by
      have := List.find?_some hf
      simpa using this
    rcases List.getElem_of_mem (List.mem_of_find?_eq_some hf) with ⟨k, hk, hsk⟩
    have hkl : i + 1 + k < l.length := by
      have := hk
      rw [List.length_drop] at this
      omega
    have hsk2 : s = l[i + 1 + k] := by
      rw [← hsk, List.getElem_drop]
    have hrel : hbLE l[i] l[i + 1 + k] :=
      (List.pairwise_iff_getElem.mp hs) i (i + 1 + k) hi hkl (by omega)
    rcases hrel with hlt | ⟨_, hadm⟩
    · rw [hsk2] at hps
      omega
    · rw [ha, ← hsk2] at hadm
      rcases hsa : s.admission_dttm with _ | a
      · simp [hsa]
      · rw [hsa] at hadm
        exact absurd hadm (by simp [admLE])

/-- A row with a missing `discharge_dttm` has `NaN` gap, hence `linked`
is false: it is never linked forward to its successor. -/
theorem linkedCol_of_disch_none (interval : Int) (l : List Hosp)
    (i : Nat) (hi : i < l.length) (hd : l[i].discharge_dttm = none) :
    linkedCol interval l i = false := by
  unfold linkedCol
  rw [List.getElem?_eq_getElem hi, Option.some_bind, hd]
  rcases nextAdm l i with _ | a <;> rfl

theorem linkedCol_of_adm_none (interval : Int) (l : List Hosp)
    (hs : List.Sorted hbLE l) (i : Nat) (hi : i < l.length)
    (ha : l[i].admission_dttm = none) :
    linkedCol interval l i = false := by
  unfold linkedCol
  rw [nextAdm_of_adm_none l hs i hi ha]
  rcases (l[i]?).bind Hosp.discharge_dttm with _ | d <;> rfl

/-- C7 (corrected).  A hospitalization with a missing `admission_dttm` is
indeed excluded from linkage on both sides and keeps a block id shared with
no other row: it is its own singleton encounter block.  A hospitalization
with a missing `discharge_dttm` is never linked forward to its successor —
but the claim's stronger reading fails: its predecessor can still be linked
to it, as `C7_missing_disch_counterexample` shows, and no flag column is
produced at all. -/
theorem C7_missing_dttm_singleton (interval : Int) (l : List Hosp)
    (hs : List.Sorted hbLE l) (i : Nat) (hi : i < l.length) :
    (l[i].admission_dttm = none →
      maskB interval l i = false ∧
      (1 ≤ i → maskB interval l (i - 1) = false) ∧
      (∀ (j : Nat), j < l.length → j ≠ i →
        labelAt interval l j ≠ labelAt interval l i)) ∧
    (l[i].discharge_dttm = none → linkedCol interval l i = false) := by
  constructor
  · intro ha
    have hmi : maskB interval l i = false := by
      unfold maskB
      rw [linkedCol_of_adm_none interval l hs i hi ha]
      rfl
    have hmprev : 1 ≤ i → maskB interval l (i - 1) = false := by
      intro h1
      have hprev : i - 1 < l.length := by omega
      have hidx : i - 1 + 1 = i := by omega
      by_cases hp : l[i - 1].patient_id = l[i].patient_id
      · have hlink : linkedCol interval l (i - 1) = false := by
          have hnext : nextAdm l (i - 1) = none := by
            unfold nextAdm
            rw [List.getElem?_eq_getElem hprev, Option.some_bind,
              show i - 1 + 1 = i from by omega,
              List.drop_eq_getElem_cons hi,
              List.find?_cons_of_pos _ (by simpa using hp.symm),
              Option.some_bind, ha]
          unfold linkedCol
          rw [hnext]
          rcases ((l[i - 1]?).bind Hosp.discharge_dttm) with _ | d <;> rfl
        unfold maskB
        rw [hlink]
        rfl
      · unfold maskB
        have hgets : l[i - 1 + 1]? = some l[i] := by
          rw [hidx]
          exact List.getElem?_eq_getElem hi
        rw [List.getElem?_eq_getElem hprev, hgets]
        simp [hp]
    refine ⟨hmi, hmprev, ?_⟩
    intro j hj hne
    unfold labelAt
    rw [hmi]
    by_cases hmj : maskB interval l j = true
    · rw [if_pos hmj, if_neg (by simp)]
      intro heq
      have hji : j + 1 = i := by omega
      have : maskB interval l (i - 1) = false := hmprev (by omega)
      rw [show i - 1 = j by omega] at this
      rw [hmj] at this
      exact Bool.true_eq_false.mp this
    · rw [if_neg hmj, if_neg (by simp)]
      intro heq
      exact hne (by omega)
  · exact linkedCol_of_disch_none interval l i hi

/-- Patient 6, second hospitalization missing its admission time: the
sorted-frame fixture for the singleton behaviour. -/
def missAdm : List Hosp := [⟨6, 601, some 0, some 3600⟩, ⟨6, 602, none, some 50000⟩]

/-- Witness: on `missAdm`, the hospitalization with the missing admission
time is unlinked on both sides and no other row shares its block id. -/
theorem C7_missing_dttm_singleton_witness :
    (List.Sorted hbLE missAdm ∧ missAdm[1].admission_dttm = none) ∧
    (maskB 6 missAdm 1 = false ∧
      (1 ≤ 1 → maskB 6 missAdm 0 = false) ∧
      (∀ (j : Nat), j < missAdm.length → j ≠ 1 →
        labelAt 6 missAdm j ≠ labelAt 6 missAdm 1)) :=
  ⟨⟨by decide, by decide⟩,
    (C7_missing_dttm_singleton 6 missAdm (by decide) 1 (by decide)).1 (by decide)⟩

/-- Patient 5: a dated hospitalization discharged at 10:00, followed by a
hospitalization admitted at 12:00 whose `discharge_dttm` is missing. -/
def missDisch : List Hosp :=
  [⟨5, 501, some 0, some 36000⟩, ⟨5, 502, some 43200, none⟩]

/-- Counterexample to C7 as stated: hospitalization 502 has a missing
`discharge_dttm`, yet its predecessor 501 is linked to it (2-hour gap) and
both end in encounter block 2 — 502 is not a singleton block. -/
theorem C7_missing_disch_counterexample :
    missDisch[1].discharge_dttm = none ∧
    List.Sorted hbLE missDisch ∧
    maskB 6 missDisch 0 = true ∧
    stitchEncounters 6 missDisch =
      [(⟨5, 501, some 0, some 36000⟩, 2), (⟨5, 502, some 43200, none⟩, 2)] := by
  decide

/-! ## Waterfall Normalizer (`process_resp_support`)

One observation row of the respiratory-support table (schema of the spec's
§6).  Numeric columns are in centi-units: the float `0.21` is `21`, and the
repair threshold `> 1` is `> 100`. -/

structure Obs where
  hospitalization_id : Nat
  recorded_dttm : Int
  device_category : Option String
  device_name : Option String
  mode_category : Option String
  mode_name : Option String
  fio2_set : Option Int
  lpm_set : Option Int
  peep_set : Option Int
  resp_rate_set : Option Int
  resp_rate_obs : Option Int
  tracheostomy : Option Bool
deriving DecidableEq, Inhabited

/-- String constants of the repair and fill rules (lowercase, as the code
lowercases the categorical columns on entry). -/
def strIMV : String := "imv"

def strMechVent : String := "mechanical ventilator"

def strNIPPV : String := "nippv"

def strMissing : String := "missing"

def strRoomAir : String := "room air"

def strBlowBy : String := "blow by"

def strTPiece : String := "t-piece"

def patACVC : String := "assist control-volume control"

def patSIMV : String := "simv"

def patPC : String := "pressure control"

/-- `startsWithSeq p l`: `p` is an initial run of `l` (character lists). -/
def startsWithSeq : List Char → List Char → Bool
  | [], _ => true
  | _ :: _, [] => false
  | a :: as, b :: bs => a == b && startsWithSeq as bs

/-- `hasSubSeq p l`: `p` occurs contiguously inside `l`. -/
def hasSubSeq (p : List Char) : List Char → Bool
  | [] => startsWithSeq p []
  | l@(_ :: t) => startsWithSeq p l || hasSubSeq p t

/-- `Series.str.contains(pat, case=False)` for a lowercase literal pattern:
case-insensitive containment. -/
def containsCI (p s : String) : Bool := hasSubSeq p.data (s.data.map Char.toLower)

/-- `str.lower()`. -/
def lowerStr (s : String) : String := String.mk (s.data.map Char.toLower)

def lowerOpt (o : Option String) : Option String := o.map lowerStr

/-- Lines 295-298: lowercase the four categorical columns. -/
def lowerCats (r : Obs) : Obs :=
  { r with device_category := lowerOpt r.device_category,
           device_name := lowerOpt r.device_name,
           mode_category := lowerOpt r.mode_category,
           mode_name := lowerOpt r.mode_name }

/-- Line 313 sort key: `(hospitalization_id, recorded_dttm)` ascending (the
spec prescribes the stable tie order, which `insertionSort` realizes). -/
def obsLE (a b : Obs) : Prop :=
  a.hospitalization_id < b.hospitalization_id ∨
    (a.hospitalization_id = b.hospitalization_id ∧ a.recorded_dttm ≤ b.recorded_dttm)

instance : DecidableRel obsLE := fun a b =>
  inferInstanceAs (Decidable (a.hospitalization_id < b.hospitalization_id ∨
    (a.hospitalization_id = b.hospitalization_id ∧ a.recorded_dttm ≤ b.recorded_dttm)))

instance : IsTotal Obs obsLE :=
  ⟨fun a b => by unfold obsLE; omega⟩

instance : IsTrans Obs obsLE :=
  ⟨fun a b c hab hbc => by unfold obsLE at hab hbc ⊢; omega⟩

/-- Line 320: the invasive-ventilation mode pattern
`'assist control-volume control|simv|pressure control'` (regex alternation
of three substrings), with `na=False` sending missing to `False`. -/
def ventPattern (m : Option String) : Bool :=
  match m with
  | none => false
  | some s => containsCI patACVC s || containsCI patSIMV s || containsCI patPC s

/-- Lines 317-323: pattern-based repair of one row — where
`device_category` and `device_name` are both missing and `mode_category`
matches the pattern, set imv / mechanical ventilator. -/
def patternFix (r : Obs) : Obs :=
  if r.device_category.isNone && r.device_name.isNone && ventPattern r.mode_category
  then { r with device_category := some strIMV, device_name := some strMechVent }
  else r

def patternRepair (l : List Obs) : List Obs := l.map patternFix

/-- Row access with the `Inhabited` default (only used at in-range indices). -/
def obsAt (l : List Obs) (i : Nat) : Obs := l.getD i default

/-- `Series.gt(1)` on a nullable float (`NaN > 1` is false); `1` is `100`
in centi-units. -/
def gtOne (x : Option Int) : Bool :=
  match x with
  | some v => decide (v > 100)
  | none => false

/-- Line 328: `device_category.shift()` — the previous row of the whole
sorted table, **not** grouped by hospitalization. -/
def shiftCatPrev (l : List Obs) (i : Nat) : Option String :=
  match i with
  | 0 => none
  | j + 1 => (l[j]?).bind Obs.device_category

/-- Line 329: `device_category.shift(-1)` — the next row of the whole
sorted table. -/
def shiftCatNext (l : List Obs) (i : Nat) : Option String :=
  (l[i + 1]?).bind Obs.device_category

/-- Lines 331-344: the neighbor-repair mask
`condition_prev | condition_next` for row `i`. -/
def neighborCond (l : List Obs) (i : Nat) : Bool :=
  (obsAt l i).device_category.isNone &&
    (decide (shiftCatPrev l i = some strIMV) ||
      decide (shiftCatNext l i = some strIMV)) &&
    gtOne (obsAt l i).resp_rate_set && gtOne (obsAt l i).peep_set

/-- Lines 326-349: the neighbor-based repair of row `i`.  Both shifted
columns are computed before the assignment, so every row is judged against
the pre-repair neighbors. -/
def neighborFix (l : List Obs) (i : Nat) : Obs :=
  if neighborCond l i
  then { obsAt l i with device_category := some strIMV,
                        device_name := some strMechVent }
  else obsAt l i

def neighborRepair (l : List Obs) : List Obs :=
  (List.range l.length).map (neighborFix l)

/-- The `(hospitalization_id, recorded_dttm)` duplicate key. -/
def dupKey (r : Obs) : Nat × Int := (r.hospitalization_id, r.recorded_dttm)

/-- Line 353: `n` — the size of the row's duplicate-key group, computed
once on the pre-filter table and not recomputed after rows are dropped. -/
def nDup (l : List Obs) (r : Obs) : Nat :=
  l.countP (fun s => decide (dupKey s = dupKey r))

/-- Lines 356-357 mask: all five key clinical variables missing. -/
def allFiveNull (r : Obs) : Bool :=
  r.device_category.isNone && r.device_name.isNone && r.mode_category.isNone &&
    r.mode_name.isNone && r.fio2_set.isNone

/-- Line 358: `drop_duplicates(subset=key, keep='first')` on index-tagged
rows — keep each duplicate key's first remaining occurrence. -/
def keepFirstAux (seen : List (Nat × Int)) : List (Nat × Obs) → List (Nat × Obs)
  | [] => []
  | (i, r) :: rest =>
    if dupKey r ∈ seen then keepFirstAux seen rest
    else (i, r) :: keepFirstAux (dupKey r :: seen) rest

/-- Lines 351-359 on index-tagged rows: drop rows of multi-row keys whose
`device_category` is `"nippv"`; then those whose `device_category` is still
missing; then rows with all five key variables missing (this `dropna` is
unconditional — it does not consult `n`); then keep the first remaining row
per key. -/
def dedupIdx (l : List Obs) : List (Nat × Obs) :=
  keepFirstAux []
    ((((l.enum).filter
        (fun p => !(decide (nDup l p.2 > 1) &&
          decide (p.2.device_category = some strNIPPV)))).filter
        (fun p => !(decide (nDup l p.2 > 1) && p.2.device_category.isNone))).filter
      (fun p => !allFiveNull p.2))

def dedupStep (l : List Obs) : List Obs := (dedupIdx l).map Prod.snd

/-! ### Positional groupby helpers

Pandas `groupby` collects **all** rows with the same key, in row order,
without requiring them to be contiguous; these index-level helpers embed
exactly that semantics over a fixed table. -/

variable {κ : Type} {α : Type} {β : Type}

/-- The indices `j ≤ i` in `i`'s group, in row order. -/
def groupUpto [DecidableEq κ] (key : Nat → κ) (i : Nat) : List Nat :=
  (List.range (i + 1)).filter (fun j => decide (key j = key i))

/-- `groupby(key).ffill()` at row `i`: the most recent non-missing value at
or before `i` within `i`'s group (scanning the group prefix from the most
recent backwards for the first non-missing entry). -/
def gffill [DecidableEq κ] (key : Nat → κ) (val : Nat → Option α) (i : Nat) :
    Option α :=
  ((groupUpto key i).reverse).findSome? val

/-- `groupby(key).shift()` index: the previous member of `i`'s group. -/
def prevSame [DecidableEq κ] (key : Nat → κ) (i : Nat) : Option Nat :=
  (((List.range i).filter (fun j => decide (key j = key i))).reverse).head?

/-- The first non-missing value strictly after `i` within `i`'s group (the
part `bfill()` adds on top of `ffill()`); `n` is the table length. -/
def gAfter (n : Nat) [DecidableEq κ] (key : Nat → κ) (val : Nat → Option α)
    (i : Nat) : Option α :=
  ((List.range n).filter
    (fun j => decide (i < j) && decide (key j = key i))).findSome? val

/-- `groupby(key).ffill().bfill()` at row `i`: forward fill, and where the
group prefix holds no value at all, the first value later in the group.
(On the forward-filled column, an entry is missing exactly when no original
value exists at or before it in its group, and the first later filled entry
is the group's first later original value — so this is the composition.) -/
def gfb (n : Nat) [DecidableEq κ] (key : Nat → κ) (val : Nat → Option α)
    (i : Nat) : Option α :=
  match gffill key val i with
  | some v => some v
  | none => gAfter n key val i

/-- Lines 368/380/392/404: the change indicator
`v != groupby(key).shift()` — true at a group's first row (comparison with
`NaN`) and wherever the value differs from the group's previous row. -/
def segChange [DecidableEq κ] [DecidableEq β] (key : Nat → κ) (v : Nat → β)
    (i : Nat) : Bool :=
  match prevSame key i with
  | none => true
  | some j => decide (v j ≠ v i)

/-- Lines 370/382/394/406: `groupby(key).cumsum()` of the change
indicator: the segment id of row `i`. -/
def segId [DecidableEq κ] [DecidableEq β] (key : Nat → κ) (v : Nat → β)
    (i : Nat) : Nat :=
  (groupUpto key i).countP (fun j => segChange key v j)

/-! ### The derived columns, layer by layer

All are index functions over the post-dedup table `d`. -/

def hospK (d : List Obs) (i : Nat) : Nat := (obsAt d i).hospitalization_id

/-- Line 363: `device_category` forward-filled within each hospitalization
(no backward fill at this level). -/
def catFF (d : List Obs) (i : Nat) : Option String :=
  gffill (hospK d) (fun j => (obsAt d j).device_category) i

/-- Line 367: `fillna('missing')` — the category codes compare equal
exactly when these filled strings are equal. -/
def catF (d : List Obs) (i : Nat) : String := (catFF d i).getD strMissing

/-- Lines 367-370: `device_cat_id` (change and cumsum grouped by
hospitalization). -/
def devCatId (d : List Obs) (i : Nat) : Nat := segId (hospK d) (catF d) i

def key1 (d : List Obs) (j : Nat) : Nat × Nat := (hospK d j, devCatId d j)

/-- Line 375: `device_name` filled within `(hospitalization_id,
device_cat_id)`. -/
def nameFill (d : List Obs) (i : Nat) : Option String :=
  gfb d.length (key1 d) (fun j => (obsAt d j).device_name) i

def nameF (d : List Obs) (i : Nat) : String := (nameFill d i).getD strMissing

/-- Lines 379-382: `device_id` — change and cumsum grouped by
**hospitalization only** (cumulative across device-category segments). -/
def devId (d : List Obs) (i : Nat) : Nat := segId (hospK d) (nameF d) i

def key2 (d : List Obs) (j : Nat) : Nat × Nat := (hospK d j, devId d j)

/-- Line 387: `mode_category` filled within `(hospitalization_id,
device_id)`. -/
def modeFill (d : List Obs) (i : Nat) : Option String :=
  gfb d.length (key2 d) (fun j => (obsAt d j).mode_category) i

def modeF (d : List Obs) (i : Nat) : String := (modeFill d i).getD strMissing

/-- Lines 391-394: `mode_cat_id` — change and cumsum grouped by
`(hospitalization_id, device_id)`, so the counter restarts inside each
device segment. -/
def modeCatId (d : List Obs) (i : Nat) : Nat := segId (key2 d) (modeF d) i

def key3 (d : List Obs) (j : Nat) : Nat × Nat := (hospK d j, modeCatId d j)

/-- Line 399: `mode_name` filled within `(hospitalization_id,
mode_cat_id)`.  Because `mode_cat_id` values recur across device segments,
such a group can span several device segments. -/
def mnameFill (d : List Obs) (i : Nat) : Option String :=
  gfb d.length (key3 d) (fun j => (obsAt d j).mode_name) i

def mnameF (d : List Obs) (i : Nat) : String := (mnameFill d i).getD strMissing

/-- Lines 403-406: `mode_name_id` — change and cumsum grouped by
`(hospitalization_id, mode_cat_id)`. -/
def modeNameId (d : List Obs) (i : Nat) : Nat := segId (key3 d) (mnameF d) i

/-- Line 411: default `fio2_set` to 0.21 where missing and the (filled)
`device_category` is `"room air"`. -/
def fio2Adj (d : List Obs) (i : Nat) : Option Int :=
  if ((obsAt d i).fio2_set).isNone && decide (catFF d i = some strRoomAir)
  then some 21 else (obsAt d i).fio2_set

/-- Lines 415-419: default `mode_category` to `"blow by"` where still
missing and the (filled) `device_name` contains `"t-piece"`. -/
def tpieceCond (d : List Obs) (i : Nat) : Bool :=
  (modeFill d i).isNone &&
    (match nameFill d i with
     | some s => containsCI strTPiece s
     | none => false)

def modeAdj (d : List Obs) (i : Nat) : Option String :=
  if tpieceCond d i then some strBlowBy else modeFill d i

def key4 (d : List Obs) (j : Nat) : Nat × Nat := (hospK d j, modeNameId d j)

/-- Line 427: remaining numeric settings filled within
`(hospitalization_id, mode_name_id)`. -/
def fio2Fin (d : List Obs) (i : Nat) : Option Int :=
  gfb d.length (key4 d) (fio2Adj d) i

def lpmFin (d : List Obs) (i : Nat) : Option Int :=
  gfb d.length (key4 d) (fun j => (obsAt d j).lpm_set) i

def peepFin (d : List Obs) (i : Nat) : Option Int :=
  gfb d.length (key4 d) (fun j => (obsAt d j).peep_set) i

def rrSetFin (d : List Obs) (i : Nat) : Option Int :=
  gfb d.length (key4 d) (fun j => (obsAt d j).resp_rate_set) i

def rrObsFin (d : List Obs) (i : Nat) : Option Int :=
  gfb d.length (key4 d) (fun j => (obsAt d j).resp_rate_obs) i

/-- Line 431: `tracheostomy` forward-filled within each hospitalization. -/
def trachFin (d : List Obs) (i : Nat) : Option Bool :=
  gffill (hospK d) (fun j => (obsAt d j).tracheostomy) i

/-- Lines 308-309: calendar day and hour of day of the timestamp (seconds
since the epoch, floor semantics). -/
def recordedDate (t : Int) : Int := Int.fdiv t 86400

def recordedHour (t : Int) : Int := Int.fdiv (Int.fmod t 86400) 3600

/-- One row of the projected output table (lines 438-447). -/
structure OutRow where
  hospitalization_id : Nat
  recorded_dttm : Int
  recorded_date : Int
  recorded_hour : Int
  device_category : Option String
  device_name : Option String
  mode_category : Option String
  mode_name : Option String
  device_cat_id : Nat
  device_id : Nat
  mode_cat_id : Nat
  mode_name_id : Nat
  fio2_set : Option Int
  lpm_set : Option Int
  peep_set : Option Int
  resp_rate_set : Option Int
  tracheostomy : Option Bool
  resp_rate_obs : Option Int
deriving DecidableEq, Inhabited

/-- The fully processed row `i` of the post-dedup table `d`, with every
column in its final (post-writeback) state. -/
def mkOut (d : List Obs) (i : Nat) : OutRow :=
  { hospitalization_id := hospK d i
    recorded_dttm := (obsAt d i).recorded_dttm
    recorded_date := recordedDate (obsAt d i).recorded_dttm
    recorded_hour := recordedHour (obsAt d i).recorded_dttm
    device_category := catFF d i
    device_name := nameFill d i
    mode_category := modeAdj d i
    mode_name := mnameFill d i
    device_cat_id := devCatId d i
    device_id := devId d i
    mode_cat_id := modeCatId d i
    mode_name_id := modeNameId d i
    fio2_set := fio2Fin d i
    lpm_set := lpmFin d i
    peep_set := peepFin d i
    resp_rate_set := rrSetFin d i
    tracheostomy := trachFin d i
    resp_rate_obs := rrObsFin d i }

/-- Line 435: `drop_duplicates()` — drop exact full-row duplicates, keeping
each first occurrence. -/
def distinctKeepAux [DecidableEq β] (seen : List β) : List β → List β
  | [] => []
  | x :: xs =>
    if x ∈ seen then distinctKeepAux seen xs
    else x :: distinctKeepAux (x :: seen) xs

def distinctKeep [DecidableEq β] (l : List β) : List β := distinctKeepAux [] l

/-- Lines 292-359: lowercase, sort, pattern repair, neighbor repair and
duplicate removal — the table on which the fill/segmentation cascade then
runs. -/
def wfPrep (l : List Obs) : List Obs :=
  dedupStep (neighborRepair (patternRepair ((l.map lowerCats).insertionSort obsLE)))

/-- Lines 279-450: the full Waterfall Normalizer on a parsed observation
table — lowercase, sort, pattern repair, neighbor repair, duplicate
removal, the nested fill/segmentation cascade, the two default rules, the
numeric and tracheostomy fills, exact-duplicate removal and projection. -/
def waterfall (l : List Obs) : List OutRow :=
  distinctKeep ((List.range (wfPrep l).length).map (mkOut (wfPrep l)))

def strVent : String := "vent"

def strVent2 : String := "vent2"

def strAC : String := "ac"

def strPS : String := "ps"

def strX : String := "x"

def strY : String := "y"

/-- One hospitalization, three timestamps; `device_name` changes at the
third row while `mode_category` changed at the second. -/
def wfEx2 : List Obs :=
  [⟨1, 0, some strIMV, some strVent, some strAC, some strX,
      none, none, none, none, none, none⟩,
   ⟨1, 3600, some strIMV, some strVent, some strPS, some strY,
      none, none, none, none, none, none⟩,
   ⟨1, 7200, some strIMV, some strVent2, some strPS, some strY,
      none, none, none, none, none, none⟩]

/-- A single row with a unique key whose five key variables are all
missing but which carries an observed respiratory rate. -/
def wfC5row : Obs :=
  ⟨1, 0, none, none, none, none, none, none, none, none, some 2000, none⟩

/-- Last row of hospitalization 1 is on `imv`; first row of
hospitalization 2 has a missing category and vent-like settings. -/
def wfEx6 : List Obs :=
  [⟨1, 0, some strIMV, some strVent, none, none, none, none, none, none, none, none⟩,
   ⟨2, 0, none, none, none, none, none, none, some 500, some 500, none, none⟩]

theorem obsAt_lt (l : List Obs) (i : Nat) (hi : i < l.length) :
    obsAt l i = l[i] := by
  rw [obsAt, List.getD_eq_getElem?_getD, List.getElem?_eq_getElem hi]
  rfl

/-- A segment id is a count of change flags over the row's group prefix,
so for two rows of the same group it can only grow with the row index. -/
theorem segId_mono [DecidableEq κ] [DecidableEq β] (key : Nat → κ)
    (v : Nat → β) (i j : Nat) (hij : i ≤ j) (hk : key i = key j) :
    segId key v i ≤ segId key v j := by
  unfold segId groupUpto
  rw [hk]
  exact List.Sublist.countP_le _
    ((List.range_sublist.mpr (by omega)).filter _)

theorem patternFix_hosp (r : Obs) :
    (patternFix r).hospitalization_id = r.hospitalization_id := by
  unfold patternFix
  split <;> rfl

theorem patternFix_dttm (r : Obs) :
    (patternFix r).recorded_dttm = r.recorded_dttm := by
  unfold patternFix
  split <;> rfl

theorem neighborFix_hosp (l : List Obs) (i : Nat) :
    (neighborFix l i).hospitalization_id = (obsAt l i).hospitalization_id := by
  unfold neighborFix
  split <;> rfl

theorem neighborFix_dttm (l : List Obs) (i : Nat) :
    (neighborFix l i).recorded_dttm = (obsAt l i).recorded_dttm := by
  unfold neighborFix
  split <;> rfl

theorem keepFirstAux_sublist (seen : List (Nat × Int)) (t : List (Nat × Obs)) :
    (keepFirstAux seen t).Sublist t := by
  induction t generalizing seen with
  | nil => simp [keepFirstAux]
  | cons x rest ih =>
    rcases x with ⟨i, r⟩
    unfold keepFirstAux
    split
    · exact (ih seen).cons _
    · exact (ih _).cons₂ _

theorem dedupStep_sublist (l : List Obs) : (dedupStep l).Sublist l := by
  have h1 : (dedupIdx l).Sublist l.enum := by
    unfold dedupIdx
    refine (keepFirstAux_sublist _ _).trans ?_
    refine (List.filter_sublist _).trans ?_
    refine (List.filter_sublist _).trans ?_
    exact List.filter_sublist _
  have h2 := h1.map Prod.snd
  rwa [List.enum_map_snd] at h2

theorem distinctKeepAux_sublist [DecidableEq β] (seen : List β) (t : List β) :
    (distinctKeepAux seen t).Sublist t := by
  induction t generalizing seen with
  | nil => simp [distinctKeepAux]
  | cons x rest ih =>
    unfold distinctKeepAux
    split
    · exact (ih seen).cons _
    · exact (ih _).cons₂ _

theorem distinctKeep_sublist [DecidableEq β] (t : List β) :
    (distinctKeep t).Sublist t := distinctKeepAux_sublist [] t

/-- The prepared table is pairwise ordered by
`(hospitalization_id, recorded_dttm)`: the sort establishes the order and
the repairs and duplicate-removal preserve it. -/
theorem wfPrep_pairwise (l : List Obs) : List.Pairwise obsLE (wfPrep l) := by
  have h1 : List.Pairwise obsLE ((l.map lowerCats).insertionSort obsLE) :=
    List.sorted_insertionSort obsLE _
  have h2 : List.Pairwise obsLE (patternRepair ((l.map lowerCats).insertionSort obsLE)) := by
    unfold patternRepair
    rw [List.pairwise_map]
    refine h1.imp ?_
    intro a b hab
    unfold obsLE at hab ⊢
    rw [patternFix_hosp, patternFix_hosp, patternFix_dttm, patternFix_dttm]
    exact hab
  have h3 : List.Pairwise obsLE
      (neighborRepair (patternRepair ((l.map lowerCats).insertionSort obsLE))) := by
    set L := patternRepair ((l.map lowerCats).insertionSort obsLE) with hL
    unfold neighborRepair
    refine List.pairwise_iff_getElem.mpr ?_
    intro i j hi hj hij
    rw [List.length_map, List.length_range] at hi hj
    rw [List.getElem_map, List.getElem_map, List.getElem_range, List.getElem_range]
    have hrel : obsLE L[i] L[j] := List.pairwise_iff_getElem.mp h2 i j hi hj hij
    unfold obsLE at hrel ⊢
    rw [neighborFix_hosp, neighborFix_hosp, neighborFix_dttm, neighborFix_dttm,
      obsAt_lt L i hi, obsAt_lt L j hj]
    exact hrel
  exact h3.sublist (dedupStep_sublist _)

/-- C2 (corrected).  In the output, within one hospitalization (rows in
`recorded_dttm` order, which is the row order): `device_cat_id` and
`device_id` are non-decreasing; `mode_cat_id` is non-decreasing only
between rows of the same `(hospitalization_id, device_id)` group — it
restarts at each new device segment — and `mode_name_id` likewise within
`(hospitalization_id, mode_cat_id)`. -/
theorem C2_id_monotonicity (l : List Obs) :
    List.Pairwise (fun a b : OutRow =>
      (a.hospitalization_id = b.hospitalization_id →
        a.device_cat_id ≤ b.device_cat_id ∧ a.device_id ≤ b.device_id ∧
        a.recorded_dttm ≤ b.recorded_dttm) ∧
      (a.hospitalization_id = b.hospitalization_id → a.device_id = b.device_id →
        a.mode_cat_id ≤ b.mode_cat_id) ∧
      (a.hospitalization_id = b.hospitalization_id → a.mode_cat_id = b.mode_cat_id →
        a.mode_name_id ≤ b.mode_name_id)) (waterfall l) := by
  unfold waterfall
  refine List.Pairwise.sublist (distinctKeep_sublist _) ?_
  refine List.pairwise_iff_getElem.mpr ?_
  intro i j hi hj hij
  rw [List.length_map, List.length_range] at hi hj
  rw [List.getElem_map, List.getElem_map, List.getElem_range, List.getElem_range]
  set d := wfPrep l with hd
  have hdp := wfPrep_pairwise l
  have hobs : obsLE d[i] d[j] := List.pairwise_iff_getElem.mp hdp i j hi hj hij
  refine ⟨?_, ?_, ?_⟩
  · intro hhosp
    unfold mkOut at hhosp ⊢
    simp only at hhosp ⊢
    have hkey : hospK d i = hospK d j := hhosp
    refine ⟨segId_mono _ _ i j (by omega) hkey,
      segId_mono _ _ i j (by omega) hkey, ?_⟩
    unfold obsLE at hobs
    unfold hospK at hkey
    rw [obsAt_lt d i hi, obsAt_lt d j hj] at hkey
    rw [obsAt_lt d i hi, obsAt_lt d j hj]
    rcases hobs with h | ⟨_, h⟩
    · omega
    · exact h
  · intro hhosp hdev
    unfold mkOut at hhosp hdev ⊢
    simp only at hhosp hdev ⊢
    have hkey : key2 d i = key2 d j := by
      unfold key2
      rw [hhosp, hdev]
    exact segId_mono _ _ i j (by omega) hkey
  · intro hhosp hmc
    unfold mkOut at hhosp hmc ⊢
    simp only at hhosp hmc ⊢
    have hkey : key3 d i = key3 d j := by
      unfold key3
      rw [hhosp, hmc]
    exact segId_mono _ _ i j (by omega) hkey

/-- Counterexample to C2 as stated: on `wfEx2` the output `mode_cat_id`
column is `[1, 2, 1]` — it decreases between the second and third rows of
one hospitalization taken in `recorded_dttm` order (the device segment
changes and the counter restarts). -/
theorem C2_mode_cat_id_decreases :
    (waterfall wfEx2).map OutRow.mode_cat_id = [1, 2, 1] ∧
    (waterfall wfEx2).map OutRow.hospitalization_id = [1, 1, 1] ∧
    (waterfall wfEx2).map OutRow.recorded_dttm = [0, 3600, 7200] := by
  decide

/-! ### Neighbor-based repair (claim C6) -/

/-- `Series.gt(1)` in row terms. -/
theorem gtOne_iff (x : Option Int) :
    gtOne x = true ↔ ∃ v, x = some v ∧ 100 < v := by
  rcases x with _ | v <;> simp [gtOne]

/-- C6 (corrected).  The neighbor repair fires on row `i` exactly when its
`device_category` is missing, the **literally adjacent** previous or next
row of the whole sorted table — regardless of hospitalization — carries
`device_category = "imv"`, and the row's `resp_rate_set` and `peep_set`
both exceed 1; the fired rows get imv / mechanical ventilator and all
other rows are unchanged. -/
theorem C6_neighbor_repair_rule (l : List Obs) (i : Nat) (hi : i < l.length) :
    (neighborCond l i = true ↔
      (l[i].device_category = none ∧
        ((1 ≤ i ∧ (l[i - 1]?).bind Obs.device_category = some strIMV) ∨
          (l[i + 1]?).bind Obs.device_category = some strIMV) ∧
        (∃ v, l[i].resp_rate_set = some v ∧ 100 < v) ∧
        (∃ v, l[i].peep_set = some v ∧ 100 < v))) ∧
    (neighborRepair l)[i]? =
      some (if neighborCond l i
        then { l[i] with device_category := some strIMV,
                         device_name := some strMechVent }
        else l[i]) := by
  constructor
  · unfold neighborCond
    rw [obsAt_lt l i hi]
    simp only [Bool.and_eq_true, Bool.or_eq_true, decide_eq_true_eq,
      gtOne_iff, Option.isNone_iff_eq_none]
    constructor
    · rintro ⟨⟨⟨hnone, hprev | hnext⟩, hrr⟩, hpp⟩
      · refine ⟨hnone, Or.inl ?_, hrr, hpp⟩
        unfold shiftCatPrev at hprev
        rcases i with _ | j
        · exact absurd hprev (by simp)
        · exact ⟨by omega, hprev⟩
      · exact ⟨hnone, Or.inr hnext, hrr, hpp⟩
    · rintro ⟨hnone, hprev | hnext, hrr, hpp⟩
      · refine ⟨⟨⟨hnone, Or.inl ?_⟩, hrr⟩, hpp⟩
        unfold shiftCatPrev
        rcases i with _ | j
        · omega
        · exact hprev.2
      · exact ⟨⟨⟨hnone, Or.inr hnext⟩, hrr⟩, hpp⟩
  · unfold neighborRepair
    simp only [List.getElem?_map, List.getElem?_range hi, Option.map_some',
      neighborFix, obsAt_lt l i hi]

/-- Witness: the rule evaluated on the two-hospitalization fixture. -/
theorem C6_neighbor_repair_rule_witness :
    1 < wfEx6.length ∧
    ((neighborCond wfEx6 1 = true ↔
      (wfEx6[1].device_category = none ∧
        ((1 ≤ 1 ∧ (wfEx6[0]?).bind Obs.device_category = some strIMV) ∨
          (wfEx6[2]?).bind Obs.device_category = some strIMV) ∧
        (∃ v, wfEx6[1].resp_rate_set = some v ∧ 100 < v) ∧
        (∃ v, wfEx6[1].peep_set = some v ∧ 100 < v))) ∧
     (neighborRepair wfEx6)[1]? =
      some (if neighborCond wfEx6 1
        then { wfEx6[1] with device_category := some strIMV,
                             device_name := some strMechVent }
        else wfEx6[1])) :=
  ⟨by decide, C6_neighbor_repair_rule wfEx6 1 (by decide)⟩

/-- Counterexample to C6 as stated: on `wfEx6` the last row of
hospitalization 1 is on imv and the only row of hospitalization 2 has a
missing category with vent-like settings; the repair fires on the
hospitalization-2 row because of the hospitalization-1 neighbor, and the
imv value flows through to the output. -/
theorem C6_cross_hospitalization_influence :
    wfEx6[1].device_category = none ∧
    wfEx6[0].hospitalization_id ≠ wfEx6[1].hospitalization_id ∧
    neighborCond wfEx6 1 = true ∧
    (waterfall wfEx6).map OutRow.device_category =
      [some strIMV, some strIMV] := by
  decide

/-! ### Duplicate/ambiguous-row removal (claim C5) -/

theorem enum_mem_iff (l : List Obs) (i : Nat) (r : Obs) :
    (i, r) ∈ l.enum ↔ l[i]? = some r := by
  constructor
  · intro h
    rcases List.mem_enum h with ⟨hi, hr⟩
    rw [hr]
    exact List.getElem?_eq_getElem hi
  · intro h
    rcases List.getElem?_eq_some.mp h with ⟨hi, hr⟩
    have hh : i < l.enum.length := by
      rw [List.enum_length]
      exact hi
    have h2 := List.getElem_enum l i hh
    rw [hr] at h2
    rw [← h2]
    exact List.getElem_mem hh

theorem enum_pairwise_fst (l : List Obs) :
    l.enum.Pairwise (fun a b => a.1 < b.1) := by
  refine List.pairwise_iff_getElem.mpr ?_
  intro i j hi hj hij
  rw [List.getElem_enum, List.getElem_enum]
  exact hij

/-- `drop_duplicates(keep='first')` membership: an index-tagged row of a
fst-sorted list survives iff its key is fresh and no earlier row of the
list shares its key. -/
theorem keepFirstAux_mem (t : List (Nat × Obs))
    (hsort : t.Pairwise (fun a b => a.1 < b.1)) (seen : List (Nat × Int))
    (i : Nat) (r : Obs) :
    (i, r) ∈ keepFirstAux seen t ↔
      ((i, r) ∈ t ∧ dupKey r ∉ seen ∧
        ∀ p ∈ t, p.1 < i → dupKey p.2 ≠ dupKey r) := by
  induction t generalizing seen with
  | nil => simp [keepFirstAux]
  | cons hd rest ih =>
    rcases hd with ⟨j, s⟩
    rcases List.pairwise_cons.mp hsort with ⟨hj, hrest⟩
    unfold keepFirstAux
    by_cases hseen : dupKey s ∈ seen
    · rw [if_pos hseen, ih hrest seen]
      constructor
      · rintro ⟨hmem, hns, hall⟩
        refine ⟨List.mem_cons_of_mem _ hmem, hns, ?_⟩
        intro p hp hpi
        rcases List.mem_cons.mp hp with rfl | hp2
        · intro hk
          exact hns (hk ▸ hseen)
        · exact hall p hp2 hpi
      · rintro ⟨hmem, hns, hall⟩
        rcases List.mem_cons.mp hmem with heq | hmem2
        · exfalso
          cases heq
          exact hns hseen
        · exact ⟨hmem2, hns,
            fun p hp hpi => hall p (List.mem_cons_of_mem _ hp) hpi⟩
    · rw [if_neg hseen]
      constructor
      · intro hmem
        rcases List.mem_cons.mp hmem with heq | hmem2
        · cases heq
          refine ⟨List.mem_cons_self _ _, hseen, ?_⟩
          intro p hp hpi
          rcases List.mem_cons.mp hp with rfl | hp2
          · exact absurd hpi (lt_irrefl _)
          · have := hj p hp2
            omega
        · rcases (ih hrest _).mp hmem2 with ⟨hmem3, hns, hall⟩
          refine ⟨List.mem_cons_of_mem _ hmem3, ?_, ?_⟩
          · intro hc
            exact hns (List.mem_cons_of_mem _ hc)
          · intro p hp hpi
            rcases List.mem_cons.mp hp with rfl | hp2
            · intro hk
              exact hns (hk ▸ List.mem_cons_self _ _)
            · exact hall p hp2 hpi
      · rintro ⟨hmem, hns, hall⟩
        rcases List.mem_cons.mp hmem with heq | hmem2
        · cases heq
          exact List.mem_cons_self _ _
        · refine List.mem_cons_of_mem _ ((ih hrest _).mpr ⟨hmem2, ?_, ?_⟩)
          · intro hc
            rcases List.mem_cons.mp hc with hks | hcs
            · have hji : j < i := hj _ hmem2
              exact hall (j, s) (List.mem_cons_self _ _) hji hks.symm
            · exact hns hcs
          · intro p hp hpi
            exact hall p (List.mem_cons_of_mem _ hp) hpi

/-- C5 (corrected).  A row survives the duplicate/ambiguous-row removal
iff: it is not a multi-key row with `device_category` `"nippv"`; not a
multi-key row with `device_category` still missing; **not a row with all
five key variables missing — this test applies to unique-key rows too**;
and no earlier row that also passes those three tests shares its
`(hospitalization_id, recorded_dttm)` key.  A row is deleted exactly when
one of these fails. -/
theorem C5_removal_rule (l : List Obs) (i : Nat) (r : Obs) :
    (i, r) ∈ dedupIdx l ↔
      (l[i]? = some r ∧
       ¬(1 < nDup l r ∧ r.device_category = some strNIPPV) ∧
       ¬(1 < nDup l r ∧ r.device_category = none) ∧
       allFiveNull r = false ∧
       ∀ (j : Nat) (s : Obs), j < i → l[j]? = some s →
         ¬(1 < nDup l s ∧ s.device_category = some strNIPPV) →
         ¬(1 < nDup l s ∧ s.device_category = none) →
         allFiveNull s = false → dupKey s ≠ dupKey r) := by
  unfold dedupIdx
  have hsort : ((((l.enum).filter
      (fun p => !(decide (nDup l p.2 > 1) &&
        decide (p.2.device_category = some strNIPPV)))).filter
      (fun p => !(decide (nDup l p.2 > 1) && p.2.device_category.isNone))).filter
      (fun p => !allFiveNull p.2)).Pairwise (fun a b => a.1 < b.1) :=
    (((enum_pairwise_fst l).filter _).filter _).filter _
  rw [keepFirstAux_mem _ hsort]
  have hmem : ∀ (j : Nat) (s : Obs),
      ((j, s) ∈ (((l.enum).filter
        (fun p => !(decide (nDup l p.2 > 1) &&
          decide (p.2.device_category = some strNIPPV)))).filter
        (fun p => !(decide (nDup l p.2 > 1) && p.2.device_category.isNone))).filter
        (fun p => !allFiveNull p.2)) ↔
      (l[j]? = some s ∧
       ¬(1 < nDup l s ∧ s.device_category = some strNIPPV) ∧
       ¬(1 < nDup l s ∧ s.device_category = none) ∧
       allFiveNull s = false) := by
    intro j s
    simp only [List.mem_filter, enum_mem_iff, Bool.not_eq_true', Bool.and_eq_false_iff,
      decide_eq_false_iff_not, Bool.not_eq_true, Option.isNone_eq_false_iff,
      Option.isSome_iff_ne_none, Option.isNone_iff_eq_none, not_lt]
    constructor
    · rintro ⟨⟨⟨hj, h1⟩, h2⟩, h3⟩
      refine ⟨hj, ?_, ?_, h3⟩
      · rintro ⟨hn, hc⟩
        rcases h1 with h1 | h1
        · omega
        · exact h1 hc
      · rintro ⟨hn, hc⟩
        rcases h2 with h2 | h2
        · omega
        · exact h2 hc
    · rintro ⟨hj, h1, h2, h3⟩
      refine ⟨⟨⟨hj, ?_⟩, ?_⟩, h3⟩
      · by_cases hn : 1 < nDup l s
        · exact Or.inr (fun hc => h1 ⟨hn, hc⟩)
        · exact Or.inl (by omega)
      · by_cases hn : 1 < nDup l s
        · exact Or.inr (fun hc => h2 ⟨hn, hc⟩)
        · exact Or.inl (by omega)

  constructor
  · rintro ⟨hmem1, _, hall⟩
    rcases (hmem i r).mp hmem1 with ⟨hi, h1, h2, h3⟩
    refine ⟨hi, h1, h2, h3, ?_⟩
    intro j s hji hjs hs1 hs2 hs3
    exact hall (j, s) ((hmem j s).mpr ⟨hjs, hs1, hs2, hs3⟩) hji
  · rintro ⟨hi, h1, h2, h3, hall⟩
    refine ⟨(hmem i r).mpr ⟨hi, h1, h2, h3⟩, by simp, ?_⟩
    intro p hp hpi
    rcases (hmem p.1 p.2).mp (by simpa using hp) with ⟨hjs, hs1, hs2, hs3⟩
    exact hall p.1 p.2 hpi hjs hs1 hs2 hs3

/-- Counterexample to C5 as stated: a row whose key is unique (its group
size is 1) but whose five key variables are all missing is deleted by the
unconditional `dropna`, although it carries an observed respiratory
rate. -/
theorem C5_unique_key_row_dropped :
    nDup [wfC5row] wfC5row = 1 ∧
    wfC5row.resp_rate_obs = some 2000 ∧
    dedupStep [wfC5row] = [] := by
  decide

/-! ### Null handling in the segmentation passes (claim C9) -/

inductive RawDttm where
  | parseable (t : Int)
  | unparseable
deriving DecidableEq

/-- An observation row as read from the input table, its timestamp not yet
parsed. -/
structure RawObs where
  hospitalization_id : Nat
  recorded_dttm : RawDttm
  device_category : Option String
  device_name : Option String
  mode_category : Option String
  mode_name : Option String
  fio2_set : Option Int
  lpm_set : Option Int
  peep_set : Option Int
  resp_rate_set : Option Int
  resp_rate_obs : Option Int
  tracheostomy : Option Bool
deriving DecidableEq

def parseDttm : RawDttm → Except Unit Int
  | RawDttm.parseable t => Except.ok t
  | RawDttm.unparseable => Except.error ()

def parseObs (r : RawObs) : Except Unit Obs :=
  (parseDttm r.recorded_dttm).map (fun t =>
    ⟨r.hospitalization_id, t, r.device_category, r.device_name,
      r.mode_category, r.mode_name, r.fio2_set, r.lpm_set, r.peep_set,
      r.resp_rate_set, r.resp_rate_obs, r.tracheostomy⟩)

/-- `pd.to_datetime` over the column: the whole conversion fails if any
row's timestamp fails to parse. -/
def parseBatch : List RawObs → Except Unit (List Obs)
  | [] => Except.ok []
  | r :: rest =>
    match parseObs r, parseBatch rest with
    | Except.ok o, Except.ok os => Except.ok (o :: os)
    | Except.error e, _ => Except.error e
    | _, Except.error e => Except.error e

deriving instance DecidableEq for Except

/-- `process_resp_support` on raw rows: parse the timestamp column (line
292), then run the waterfall; an unparseable timestamp anywhere raises out
of the whole call. -/
def processRespSupport (l : List RawObs) : Except Unit (List OutRow) :=
  (parseBatch l).map waterfall

theorem parseBatch_error (l : List RawObs) (r : RawObs) (hr : r ∈ l)
    (hu : r.recorded_dttm = RawDttm.unparseable) :
    parseBatch l = Except.error () := by
  induction l with
  | nil => cases hr
  | cons x rest ih =>
    rcases List.mem_cons.mp hr with rfl | hr2
    · have hx : parseObs r = Except.error () := by
        unfold parseObs
        rw [hu]
        rfl
      unfold parseBatch
      rw [hx]
      rcases hrest : parseBatch rest with e | os
      · cases e
        rfl
      · rfl
    · unfold parseBatch
      rw [ih hr2]
      rcases hpx : parseObs x with e | o
      · cases e
        rfl
      · rfl

/-- C4 (corrected).  One unparseable `recorded_dttm` anywhere in the batch
makes the whole `process_resp_support` call fail: no hospitalization of
the batch is normalized or returned.  The error is not scoped to the
owning hospitalization. -/
theorem C4_unparseable_aborts_batch (l : List RawObs)
    (h : ∃ r ∈ l, r.recorded_dttm = RawDttm.unparseable) :
    processRespSupport l = Except.error () := by
  rcases h with ⟨r, hr, hu⟩
  unfold processRespSupport
  rw [parseBatch_error l r hr hu]
  rfl

/-- A batch of two hospitalizations: hospitalization 1 has the unparseable
timestamp, hospitalization 2 is fully well-formed. -/
def rawBad : RawObs :=
  ⟨1, RawDttm.unparseable, some strIMV, none, none, none,
    none, none, none, none, none, none⟩

def rawGood : RawObs :=
  ⟨2, RawDttm.parseable 0, some strRoomAir, none, none, none,
    none, none, none, none, none, none⟩

/-- Witness: the batch `[rawBad, rawGood]` fails as a whole. -/
theorem C4_unparseable_aborts_batch_witness :
    (∃ r ∈ [rawBad, rawGood], r.recorded_dttm = RawDttm.unparseable) ∧
    processRespSupport [rawBad, rawGood] = Except.error () :=
  ⟨by decide, C4_unparseable_aborts_batch [rawBad, rawGood] (by decide)⟩

/-- Counterexample to C4 as stated: hospitalization 2 alone normalizes
fine, but in a batch with hospitalization 1's unparseable row nothing at
all is returned — the other hospitalization of the batch is *not* still
normalized and returned. -/
theorem C4_other_hospitalization_not_returned :
    rawBad.hospitalization_id ≠ rawGood.hospitalization_id ∧
    processRespSupport [rawGood] ≠ Except.error () ∧
    processRespSupport [rawBad, rawGood] = Except.error () := by
  decide

/-! ### Idempotence machinery (claim C10)

Congruence and idempotence facts for the fill and segmentation operators:
they consult keys and values only at indices at or below the queried row
(forward fill, shift, cumsum) or below the table length (backward fill). -/

end CLIF
